import Mathlib

/-!
# Verification of the AgChart builder engine (`src/charts-community-modules/core/src/chart/agChart.ts`)

This file is a shallow embedding of the chart factory in `agChart.ts`:
the static `mappings` registry, `getMapping`, and the `AgChart.create` /
`AgChart.update` algorithms (`setChartType`, `setComponentType`,
`setComponentDefaults`, `_create`, `_update`).

Modelling decisions (documented once here):

* JavaScript values flowing through configuration objects are modelled by the
  inductive `DVal`: `undefined`, strings, constructor functions, host objects
  (`document.body`), arrays and plain objects.  Numbers and booleans never
  appear in the registry nor in any claim and are not modelled.
* Mutation is modelled by explicit state passing: every operation that can
  mutate a configuration node returns the node's value after the call.
  `Object.create(options)` (used by `create`/`update` to avoid mutating the
  caller's object) is modelled by the constructor `DVal.protoObj own proto`:
  reads consult `own` then fall through to `proto`; JS property assignments
  write to `own` (shadowing); in-place mutation of a nested node obtained by
  reading a key is propagated back to whichever side the key was read from
  (`updateKeyInPlace`), which is exactly the aliasing JS exhibits.
* Dotted path strings are represented by their segment lists: the source only
  ever builds paths by concatenating `'.'`-joined chunks and `getMapping`
  immediately re-splits on `'.'`, so `path + '.' + t` corresponds to
  `segs ++ t.splitOn "."`, faithfully including type strings that themselves
  contain dots.  `getMapping` on a string is `getMappingSegs ∘ splitOn "."`.
* Member access on `undefined` throws a `TypeError` in JS; this is modelled by
  `JErr.typeError` results at exactly the source positions where an unguarded
  access occurs (`getMapping`'s walk, `value.type` on an `undefined` value,
  `component.legend[key]` when no legend instance exists).
* Inherited `Object.prototype` members are not modelled: property reads and the
  `in` operator consult own keys only.  No claim exercises keys such as
  `"constructor"` on descriptor literals that lack them.
* The recursion of `_create` is fuelled; `JErr.outOfFuel` is a model artifact
  distinct from a JS `TypeError` and never occurs for adequate fuel.
-/

/-- The constructor functions imported at the top of `agChart.ts`.  Their class
bodies live in files that are not under `src/`; here a constructor is just a
tag naming the kind of component it builds. -/
inductive CompKind where
  | cartesianChart
  | polarChart
  | numberAxis
  | categoryAxis
  | lineSeries
  | columnSeries
  | barSeries
  | scatterSeries
  | areaSeries
  | pieSeries
  | caption
  | legendComp
  | padding
  deriving DecidableEq, Repr

/-- Dynamic JavaScript values as they appear in configuration objects and in
the `mappings` registry.  `protoObj own proto` models `Object.create(proto)`
after some own-property writes; `ext` models host objects such as
`document.body`. -/
inductive DVal where
  | undefined
  | str (s : String)
  | ctorv (k : CompKind)
  | ext (name : String)
  | arr (elems : List DVal)
  | obj (fields : List (String × DVal))
  | protoObj (own proto : List (String × DVal))

instance : Inhabited DVal := ⟨DVal.undefined⟩

/-- JS runtime outcomes: a thrown `TypeError`, or exhaustion of the model's
recursion fuel (never happens for adequate fuel). -/
inductive JErr where
  | typeError
  | outOfFuel
  deriving DecidableEq, Repr

abbrev JRes (α : Type) := Except JErr α

/-- First binding of a key in an association list (JS objects have unique own
keys; the model's lists are used with that discipline). -/
def lookupField : List (String × DVal) → String → Option DVal
  | [], _ => none
  | (k, v) :: rest, key => if k = key then some v else lookupField rest key

/-- JS property write on a plain object: update in place if the key exists
(keeping its position in insertion order), else append. -/
def setField : List (String × DVal) → String → DVal → List (String × DVal)
  | [], key, v => [(key, v)]
  | (k, w) :: rest, key, v =>
    if k = key then (k, v) :: rest else (k, w) :: setField rest key v

def digitChar (n : Nat) : Char := Char.ofNat (48 + n)

/-- Decimal digits of `n`, most significant first (kernel-reducible rendering
of `toString : Nat → String`; the extra first argument is structural fuel). -/
def natDigitsAux : Nat → Nat → List Char
  | 0, _ => []
  | fuel + 1, n =>
    if n < 10 then [digitChar n]
    else natDigitsAux fuel (n / 10) ++ [digitChar (n % 10)]

def natToString (n : Nat) : String := String.mk (natDigitsAux (n + 1) n)

def digitVal? (c : Char) : Option Nat :=
  if '0' ≤ c ∧ c ≤ '9' then some (c.toNat - 48) else none

def parseNatAux : List Char → Nat → Option Nat
  | [], acc => some acc
  | c :: rest, acc =>
    match digitVal? c with
    | some d => parseNatAux rest (acc * 10 + d)
    | none => none

/-- JS array index keys are canonical decimal strings: `"01"` is not an index. -/
def arrayIndex? (s : String) : Option Nat :=
  match s.data with
  | [] => none
  | cs =>
    match parseNatAux cs 0 with
    | some n => if natToString n = s then some n else none
    | none => none

/-- JS truthiness for the modelled values: `undefined` and `""` are falsy,
everything else (including empty arrays and objects) is truthy. -/
def truthy : DVal → Bool
  | .undefined => false
  | .str s => s ≠ ""
  | _ => true

def isUndefined : DVal → Bool
  | .undefined => true
  | _ => false

/-- `typeof v === 'object'` (for the non-null values we model): objects,
prototype objects, arrays and host objects. -/
def isObjectLike : DVal → Bool
  | .obj _ => true
  | .protoObj _ _ => true
  | .arr _ => true
  | .ext _ => true
  | _ => false

/-- Non-throwing property read `v[key]` (call sites guard against reading off
`undefined`, which would throw; see `getMappingSegs` for the guarded walk). -/
def getKey : DVal → String → DVal
  | .obj fs, k => (lookupField fs k).getD .undefined
  | .protoObj own proto, k =>
    match lookupField own k with
    | some v => v
    | none => (lookupField proto k).getD .undefined
  | .arr xs, k =>
    match arrayIndex? k with
    | some i => xs.getD i .undefined
    | none => .undefined
  | .str s, k =>
    match arrayIndex? k with
    | some i =>
      match s.toList.get? i with
      | some c => .str (String.mk [c])
      | none => .undefined
    | none => .undefined
  | _, _ => .undefined

/-- JS assignment `v[key] = w`.  On a prototype object the write lands on the
own side (shadowing the prototype).  Assignments to array expando properties
and to host objects are not modelled (no claim exercises them). -/
def assignKey : DVal → String → DVal → DVal
  | .obj fs, k, v => .obj (setField fs k v)
  | .protoObj own proto, k, v => .protoObj (setField own k v) proto
  | .arr xs, k, v =>
    match arrayIndex? k with
    | some i => .arr (xs.set i v)
    | none => .arr xs
  | other, _, _ => other

/-- Propagation of an in-place mutation of the node stored at `key`: the
mutated node replaces the old one wherever it was read from (own side first,
else prototype side).  This models JS aliasing: mutating `options[key]` in
place is visible both through the `Object.create` copy and through the
caller's original object. -/
def updateKeyInPlace : DVal → String → DVal → DVal
  | .obj fs, k, v => if (lookupField fs k).isSome then .obj (setField fs k v) else .obj fs
  | .protoObj own proto, k, v =>
    if (lookupField own k).isSome then .protoObj (setField own k v) proto
    else if (lookupField proto k).isSome then .protoObj own (setField proto k v)
    else .protoObj own proto
  | .arr xs, k, v =>
    match arrayIndex? k with
    | some i => .arr (xs.set i v)
    | none => .arr xs
  | other, _, _ => other

/-- The key sequence visited by `for (const key in v)`: own keys in insertion
order; for an `Object.create` copy, own keys then non-shadowed prototype keys;
for arrays and strings, index strings. -/
def ownKeysForIn : DVal → List String
  | .obj fs => fs.map Prod.fst
  | .protoObj own proto =>
    own.map Prod.fst ++
      (proto.map Prod.fst).filter (fun k => ¬ (own.map Prod.fst).contains k)
  | .arr xs => (List.range xs.length).map natToString
  | .str s => (List.range s.length).map natToString
  | _ => []

/-- The `in` operator, `key in v`, restricted to own keys (see header note on
`Object.prototype`); throws on primitives. -/
def keyInRes : DVal → String → JRes Bool
  | .obj fs, k => .ok (lookupField fs k).isSome
  | .protoObj own proto, k =>
    .ok ((lookupField own k).isSome || (lookupField proto k).isSome)
  | .arr xs, k =>
    .ok (match arrayIndex? k with
         | some i => decide (i < xs.length)
         | none => decide (k = "length"))
  | .ext _, _ => .ok false
  | _, _ => .error .typeError

/-- Non-throwing form of the `in` operator used where the receiver is known to
be an object (the resolved `mapping`). -/
def keyIn (v : DVal) (k : String) : Bool :=
  match keyInRes v k with
  | .ok b => b
  | .error _ => false

/-- Reads a registry array of strings (`constructorParams`, `exclude`);
anything else contributes no names. -/
def asStrList : DVal → List String
  | .arr xs => xs.filterMap (fun v => match v with | .str s => some s | _ => none)
  | _ => []

mutual
/-- JS string coercion for the values we model (only the `str` case is ever
exercised by path concatenation in practice). -/
def jsToString : DVal → String
  | .undefined => "undefined"
  | .str s => s
  | .ctorv _ => "function"
  | .ext n => n
  | .arr xs => jsToStringList xs
  | .obj _ => "[object Object]"
  | .protoObj _ _ => "[object Object]"

def jsToStringList : List DVal → String
  | [] => ""
  | [x] => jsToString x
  | x :: xs => jsToString x ++ "," ++ jsToStringList xs
end

/-! ## The `mappings` registry (agChart.ts lines 15–94), transcribed verbatim. -/

def numberAxisMapping : DVal :=
  .obj [("constructor", .ctorv .numberAxis), ("label", .obj []), ("tick", .obj [])]

def categoryAxisMapping : DVal :=
  .obj [("constructor", .ctorv .categoryAxis), ("label", .obj []), ("tick", .obj [])]

def cartesianMapping : DVal :=
  .obj
    [ ("constructor", .ctorv .cartesianChart),
      ("constructorParams", .arr [.str "document"]),
      ("exclude", .arr [.str "parent", .str "data"]),
      ("defaults", .obj
        [ ("axes", .arr
            [ .obj [("type", .str "category"), ("position", .str "bottom")],
              .obj [("type", .str "number"), ("position", .str "left")] ]) ]),
      ("padding", .obj [("constructor", .ctorv .padding)]),
      ("title", .obj [("constructor", .ctorv .caption)]),
      ("subtitle", .obj [("constructor", .ctorv .caption)]),
      ("axes", .obj
        [ ("number", numberAxisMapping),
          ("category", categoryAxisMapping) ]),
      ("series", .obj
        [ ("line", .obj [("constructor", .ctorv .lineSeries), ("marker", .obj [])]),
          ("column", .obj [("constructor", .ctorv .columnSeries)]),
          ("bar", .obj [("constructor", .ctorv .barSeries)]),
          ("scatter", .obj [("constructor", .ctorv .scatterSeries), ("marker", .obj [])]),
          ("area", .obj [("constructor", .ctorv .areaSeries), ("marker", .obj [])]) ]),
      ("legend", .obj [("constructor", .ctorv .legendComp)]) ]

def polarMapping : DVal :=
  .obj
    [ ("constructor", .ctorv .polarChart),
      ("constructorParams", .arr [.str "document"]),
      ("defaults", .obj [("parent", .ext "document.body")]),
      ("series", .obj
        [ ("pie", .obj [("constructor", .ctorv .pieSeries)]) ]),
      ("legend", .obj [("constructor", .ctorv .legendComp)]) ]

def mappings : DVal :=
  .obj [("cartesian", cartesianMapping), ("polar", polarMapping)]

/-! ## Path resolution (`getMapping`, agChart.ts lines 96–103). -/

/-- `path.split('.')` (kernel-reducible rendering of `String.splitOn "."`):
`"a.b" ↦ ["a","b"]`, `"" ↦ [""]`, `"a." ↦ ["a",""]`. -/
def splitSegsAux : List Char → List Char → List String
  | [], acc => [String.mk acc.reverse]
  | c :: rest, acc =>
    if c = '.' then String.mk acc.reverse :: splitSegsAux rest []
    else splitSegsAux rest (c :: acc)

def splitSegs (s : String) : List String := splitSegsAux s.data []

/-- The body of `getMapping`: walk the registry segment by segment.  Reading
`value[part]` when `value` is `undefined` throws a `TypeError`, exactly as in
`parts.forEach(part => { value = value[part]; })`. -/
def getMappingSegs (parts : List String) : JRes DVal :=
  parts.foldlM
    (fun value part =>
      match value with
      | .undefined => .error .typeError
      | v => .ok (getKey v part))
    mappings

/-- `getMapping(path)` on a dotted string. -/
def getMapping (path : String) : JRes DVal :=
  getMappingSegs (splitSegs path)

/-! ## Component instances. -/

mutual
/-- A live component instance: its kind (which constructor built it), the
arguments the constructor received, and its named properties in insertion
order. -/
inductive Component : Type where
  | mk (kind : CompKind) (ctorArgs : List DVal) (props : List (String × CompVal)) : Component

/-- A value stored in a component property: a plain JS value, a nested
component instance, or an array of component instances. -/
inductive CompVal : Type where
  | val (v : DVal) : CompVal
  | comp (c : Component) : CompVal
  | comps (cs : List Component) : CompVal
end

def Component.kind : Component → CompKind
  | .mk k _ _ => k

def Component.ctorArgs : Component → List DVal
  | .mk _ a _ => a

def Component.props : Component → List (String × CompVal)
  | .mk _ _ p => p

def lookupProp : List (String × CompVal) → String → Option CompVal
  | [], _ => none
  | (k, v) :: rest, key => if k = key then some v else lookupProp rest key

def setProp : List (String × CompVal) → String → CompVal → List (String × CompVal)
  | [], key, v => [(key, v)]
  | (k, w) :: rest, key, v =>
    if k = key then (k, v) :: rest else (k, w) :: setProp rest key v

def compGetProp (c : Component) (key : String) : Option CompVal :=
  lookupProp c.props key

def compSetProp (c : Component) (key : String) (v : CompVal) : Component :=
  .mk c.kind c.ctorArgs (setProp c.props key v)

/-- Truthiness of `component[key]`: component instances and arrays (even empty)
are truthy, plain values by `truthy`, a missing property is `undefined`. -/
def compValTruthy : Option CompVal → Bool
  | some (.val v) => truthy v
  | some (.comp _) => true
  | some (.comps _) => true
  | none => false

/-- Modelled from the spec: the component classes (CartesianChart, PolarChart,
the axis/series classes, Legend, Caption, Padding) are imported from files not
under `src/`.  Per the spec (§4.2 step 6 and §8 "Reuse over replace"), a chart
auto-creates its `legend` sub-instance at construction; the other components
start with no preset properties.  `new mapping.constructor(...args)` records
the kind and the argument list. -/
def construct (k : CompKind) (args : List DVal) : Component :=
  .mk k args
    (match k with
     | .cartesianChart | .polarChart => [("legend", .comp (.mk .legendComp [] []))]
     | _ => [])

/-! ## Type inference and defaults (agChart.ts lines 114–162). -/

/-- The nested loop of `setChartType` (lines 120–127): find the first top-level
chart kind whose `series` sub-registry has a key strictly equal to the first
series' `type`. -/
def chartTypeForSeries (seriesTypeVal : DVal) : Option String :=
  (ownKeysForIn mappings).findSome? fun chartType =>
    match (ownKeysForIn (getKey (getKey mappings chartType) "series")).find?
            (fun seriesType =>
              match seriesTypeVal with
              | .str t => t = seriesType
              | _ => false) with
    | some _ => some chartType
    | none => none

/-- `AgChart.setChartType` (lines 114–133): if the config has no truthy `type`,
infer it from the type of the first series, falling back to `'cartesian'`. -/
def setChartType (options : DVal) : DVal :=
  if truthy (getKey options "type") then options
  else
    let series :=
      if truthy (getKey options "series") then getKey (getKey options "series") "0"
      else getKey options "series"
    let options :=
      if truthy series && truthy (getKey series "type") then
        match chartTypeForSeries (getKey series "type") with
        | some chartType => assignKey options "type" (.str chartType)
        | none => options
      else options
    if truthy (getKey options "type") then options
    else assignKey options "type" (.str "cartesian")

/-- `AgChart.setComponentType` (lines 135–149).  `path` is carried as its
segment list (see header). -/
def setComponentType (options : DVal) (path : Option (List String)) : DVal :=
  let options := if path.isNone then setChartType options else options
  let options :=
    if path = some ["cartesian", "series"] && ¬ truthy (getKey options "type") then
      assignKey options "type" (.str "line")
    else options
  if path = some ["polar", "series"] && ¬ truthy (getKey options "type") then
    assignKey options "type" (.str "pie")
  else options

/-- `AgChart.setComponentDefaults` (lines 151–162): for every key of the
mapping's `defaults`, if the config's value at that key is falsy, write the
default. -/
def setComponentDefaults (options : DVal) (mapping : DVal) : DVal :=
  let defaults := getKey mapping "defaults"
  if truthy defaults then
    (ownKeysForIn defaults).foldl
      (fun opts key =>
        if truthy (getKey opts key) then opts
        else assignKey opts key (getKey defaults key))
      options
  else options

/-- The path extension of `_create`/`_update` (lines 171–177 / 225–231): with a
parent path, append the config's truthy `type` (string-coerced, re-split on
dots); at the root the path becomes `options.type` itself, and `getMapping`
then calls `.split` on it, which throws unless it is a string. -/
def resolvePath (options : DVal) : Option (List String) → JRes (List String)
  | some p =>
    .ok (if truthy (getKey options "type")
         then p ++ splitSegs (jsToString (getKey options "type"))
         else p)
  | none =>
    match getKey options "type" with
    | .str s => .ok (splitSegs s)
    | _ => .error .typeError

/-! ## `AgChart._create` (agChart.ts lines 164–216). -/

/-- Lines 194–195, parameterized by the recursive call `recf` (instantiated
with `_create` at the next fuel level):
`value.map(config => AgChart._create(config, path + '.' + key))
.filter(config => !!config)`, returning also the mutated elements. -/
def createElemsWith
    (recf : DVal → Option (List String) → Option Component →
            JRes (Option Component × DVal)) :
    List DVal → List String → JRes (List Component × List DVal)
  | [], _ => .ok ([], [])
  | e :: rest, path =>
    match recf e (some path) none with
    | .error err => .error err
    | .ok (c?, e2) =>
      match createElemsWith recf rest path with
      | .error err => .error err
      | .ok (cs, es) =>
        .ok ((match c? with | some c => c :: cs | none => cs), e2 :: es)

/-- One iteration of the `for (const key in options)` loop of `_create`
(lines 188–213), parameterized by the recursive call. -/
def processKeyWith
    (recf : DVal → Option (List String) → Option Component →
            JRes (Option Component × DVal))
    (component : Component) (options : DVal) (path : List String)
    (mapping : DVal) (cparams : List String) (key : String) :
    JRes (Component × DVal) :=
  -- line 190: skip `type` and constructor params
  if key = "type" || cparams.contains key then .ok (component, options)
  else
    let value := getKey options key
    -- line 193: `key in mapping && !(mapping.exclude && mapping.exclude.indexOf(key) >= 0)`
    if keyIn mapping key &&
       ¬ (truthy (getKey mapping "exclude") &&
          (asStrList (getKey mapping "exclude")).contains key) then
      match value with
      | .arr elems =>
        -- lines 194–196: build each element, drop the undefined ones
        match createElemsWith recf elems (path ++ [key]) with
        | .error e => .error e
        | .ok (subComponents, elems2) =>
          .ok (compSetProp component key (.comps subComponents),
               updateKeyInPlace options key (.arr elems2))
      | _ =>
        -- line 198: `mapping[key] && component[key]`
        if truthy (getKey mapping key) && compValTruthy (compGetProp component key) then
          match compGetProp component key with
          | some (.comp sub) =>
            -- line 201: reconfigure the existing instance in place
            match recf value (some (path ++ [key])) (some sub) with
            | .error e => .error e
            | .ok (sub2?, value2) =>
              let component :=
                match sub2? with
                | some sub2 => compSetProp component key (.comp sub2)
                | none => component
              .ok (component, updateKeyInPlace options key value2)
          | _ =>
            -- a truthy reuse target that is not a component instance: the
            -- source would pass a primitive/array as `component`; strict-mode
            -- property writes on it throw (not exercised by any claim)
            .error .typeError
        else
          match value with
          | .undefined =>
            -- line 203 reads `value.type` on `undefined`: TypeError
            .error .typeError
          | _ =>
            let childPath :=
              if truthy (getKey value "type") then path else path ++ [key]
            match recf value (some childPath) none with
            | .error e => .error e
            | .ok (sub?, value2) =>
              let component :=
                match sub? with
                | some sub => compSetProp component key (.comp sub)
                | none => component
              .ok (component, updateKeyInPlace options key value2)
    else
      -- line 210: passthrough
      .ok (compSetProp component key (.val value), options)

/-- The whole `for (const key in options)` loop, parameterized by the
recursive call. -/
def foldKeysWith
    (recf : DVal → Option (List String) → Option Component →
            JRes (Option Component × DVal)) :
    List String → Component → DVal → List String → DVal → List String →
    JRes (Component × DVal)
  | [], component, options, _, _, _ => .ok (component, options)
  | key :: rest, component, options, path, mapping, cparams =>
    match processKeyWith recf component options path mapping cparams key with
    | .error e => .error e
    | .ok (component, options) =>
      foldKeysWith recf rest component options path mapping cparams

/-- `AgChart._create(options, path?, component?)` (lines 164–216).  Returns
the component built for this subtree (`none` when the node is dropped)
together with the value of `options` after the call (capturing in-place
mutation).  The recursion is fuelled (one unit per nesting level);
`outOfFuel` never occurs for adequate fuel. -/
def createC : Nat → DVal → Option (List String) → Option Component →
    JRes (Option Component × DVal)
  | 0, _, _, _ => .error .outOfFuel
  | fuel + 1, options, path?, component? =>
    -- line 165: `if (!(options && typeof options === 'object')) return;`
    if ¬ (truthy options && isObjectLike options) then .ok (none, options)
    else
      let options := setComponentType options path?
      match resolvePath options path? with
      | .error e => .error e
      | .ok path =>
        match getMappingSegs path with
        | .error e => .error e
        | .ok mapping =>
          if truthy mapping then
            let options := setComponentDefaults options mapping
            -- lines 183–185
            let cparams := asStrList (getKey mapping "constructorParams")
            let ctorArgs :=
              (cparams.map (fun p => getKey options p)).filter (fun v => ¬ isUndefined v)
            -- line 186: `component = component || new mapping.constructor(...)`
            match (match component? with
                   | some c => Except.ok c
                   | none =>
                     match getKey mapping "constructor" with
                     | .ctorv k => Except.ok (construct k ctorArgs)
                     | _ => Except.error JErr.typeError) with
            | .error e => .error e
            | .ok component =>
              -- lines 188–213: `for (const key in options) ...`
              match foldKeysWith (fun o p c => createC fuel o p c)
                      (ownKeysForIn options) component options path
                      mapping cparams with
              | .error e => .error e
              | .ok (component, options) => .ok (some component, options)
          else .ok (none, options)

/-- `AgChart.create(options)` (lines 106–108): run `_create` on
`Object.create(options)`.  The second result is the caller's options object as
observable after the call (the prototype side of the copy). -/
def create (fuel : Nat) (options : DVal) : JRes (Option Component × DVal) :=
  match options with
  | .obj fields =>
    match createC fuel (.protoObj [] fields) none none with
    | .error e => .error e
    | .ok (c?, .protoObj _ proto) => .ok (c?, .obj proto)
    | .ok (c?, other) => .ok (c?, other)
  | _ => .error .typeError

/-- The caller's configuration object as observable after `create` (`undefined`
when the call threw). -/
def cfgAfterCreate (fuel : Nat) (options : DVal) : DVal :=
  match create fuel options with
  | .ok (_, cfg) => cfg
  | .error _ => .undefined

def isOk {α : Type} : JRes α → Bool
  | .ok _ => true
  | .error _ => false

/-! ## `AgChart._update` (agChart.ts lines 218–252). -/

/-- The legend overwrite loop (lines 244–250): for every key of
`Legend.defaults`, write `options.legend[key]` when present (by the `in`
operator), else the default. -/
def legendWrite (legendDefaults : List (String × DVal)) (legendCfg : DVal)
    (props : List (String × CompVal)) : JRes (List (String × CompVal)) :=
  match legendDefaults with
  | [] => .ok props
  | (key, dflt) :: rest =>
    match keyInRes legendCfg key with
    | .error e => .error e
    | .ok b =>
      legendWrite rest legendCfg
        (setProp props key (.val (if b then getKey legendCfg key else dflt)))

/-- `AgChart._update(component, options, path?)` (lines 218–252).
`Legend.defaults` lives in `./legend`, which is not under `src/`; modelled from
the spec ("a published table of option names to default values, consulted
verbatim by `update`") as an explicit association-list parameter. -/
def updateC (legendDefaults : List (String × DVal)) (component : Component)
    (options : DVal) (path? : Option (List String)) : JRes Component :=
  if ¬ (truthy options && isObjectLike options) then .ok component
  else
    let options := setComponentType options path?
    match resolvePath options path? with
    | .error e => .error e
    | .ok path =>
      match getMappingSegs path with
      | .error e => .error e
      | .ok mapping =>
        -- lines 235–241: instanceof gate, then defaults merge.  `instanceof`
        -- is modelled from the spec as a kind check ("verifies the existing
        -- instance's kind matches the descriptor's factory output kind"); the
        -- class hierarchy is not under `src/`.
        match (if truthy mapping then
                 match getKey mapping "constructor" with
                 | .ctorv k =>
                   if component.kind = k then
                     Except.ok (some (setComponentDefaults options mapping))
                   else Except.ok none
                 | _ => Except.error JErr.typeError
               else Except.ok (some options) : JRes (Option DVal)) with
        | .error e => .error e
        | .ok none => .ok component   -- line 237: silent no-op return
        | .ok (some options) =>
          -- lines 243–251
          if truthy (getKey options "legend") then
            match compGetProp component "legend" with
            | some (.comp legendInst) =>
              match legendWrite legendDefaults (getKey options "legend")
                      legendInst.props with
              | .error e => .error e
              | .ok props2 =>
                .ok (compSetProp component "legend"
                      (.comp (.mk legendInst.kind legendInst.ctorArgs props2)))
            | _ =>
              -- `component.legend[key] = ...` with no legend instance: the
              -- write target is `undefined` (TypeError) or a primitive/array
              -- (not exercised by any claim)
              .error .typeError
          else .ok component

/-- `AgChart.update(chart, options)` (lines 110–112): `_update` on
`Object.create(options)`. -/
def update (legendDefaults : List (String × DVal)) (chart : Component)
    (options : DVal) : JRes Component :=
  match options with
  | .obj fields => updateC legendDefaults chart (.protoObj [] fields) none
  | _ => .error .typeError

/-! ## Basic lemmas about field and property access. -/

theorem lookupField_setField_self (fs : List (String × DVal)) (k : String) (v : DVal) :
    lookupField (setField fs k v) k = some v := by
  induction fs with
  | nil => simp [setField, lookupField]
  | cons hd tl ih =>
    obtain ⟨k', w⟩ := hd
    by_cases h : k' = k
    · subst h; simp [setField, lookupField]
    · simp [setField, lookupField, h, ih]

theorem lookupField_setField_ne (fs : List (String × DVal)) (k p : String) (v : DVal)
    (h : p ≠ k) : lookupField (setField fs k v) p = lookupField fs p := by
  have h' : k ≠ p := Ne.symm h
  induction fs with
  | nil => simp [setField, lookupField, h']
  | cons hd tl ih =>
    obtain ⟨k', w⟩ := hd
    by_cases hk : k' = k
    · subst hk
      simp [setField, lookupField, h']
    · simp [setField, lookupField, hk, ih]

theorem setField_keys_of_isSome (fs : List (String × DVal)) (k : String) (v : DVal)
    (h : (lookupField fs k).isSome = true) :
    (setField fs k v).map Prod.fst = fs.map Prod.fst := by
  induction fs with
  | nil => simp [lookupField] at h
  | cons hd tl ih =>
    obtain ⟨k', w⟩ := hd
    by_cases hk : k' = k
    · subst hk; simp [setField]
    · simp [lookupField, hk] at h
      simp [setField, hk, ih h]

theorem lookupProp_setProp_self (ps : List (String × CompVal)) (k : String) (v : CompVal) :
    lookupProp (setProp ps k v) k = some v := by
  induction ps with
  | nil => simp [setProp, lookupProp]
  | cons hd tl ih =>
    obtain ⟨k', w⟩ := hd
    by_cases h : k' = k
    · subst h; simp [setProp, lookupProp]
    · simp [setProp, lookupProp, h, ih]

theorem lookupProp_setProp_ne (ps : List (String × CompVal)) (k p : String) (v : CompVal)
    (h : p ≠ k) : lookupProp (setProp ps k v) p = lookupProp ps p := by
  have h' : k ≠ p := Ne.symm h
  induction ps with
  | nil => simp [setProp, lookupProp, h']
  | cons hd tl ih =>
    obtain ⟨k', w⟩ := hd
    by_cases hk : k' = k
    · subst hk
      simp [setProp, lookupProp, h']
    · simp [setProp, lookupProp, hk, ih]

theorem compSetProp_kind (c : Component) (k : String) (v : CompVal) :
    (compSetProp c k v).kind = c.kind := rfl

theorem compSetProp_ctorArgs (c : Component) (k : String) (v : CompVal) :
    (compSetProp c k v).ctorArgs = c.ctorArgs := rfl

theorem compGetProp_compSetProp_ne (c : Component) (k p : String) (v : CompVal)
    (h : p ≠ k) : compGetProp (compSetProp c k v) p = compGetProp c p := by
  unfold compGetProp compSetProp
  exact lookupProp_setProp_ne _ _ _ _ h

theorem getKey_assignKey_obj_self (fs : List (String × DVal)) (k : String) (v : DVal) :
    getKey (assignKey (.obj fs) k v) k = v := by
  simp [assignKey, getKey, lookupField_setField_self]

theorem getKey_assignKey_obj_ne (fs : List (String × DVal)) (k p : String) (v : DVal)
    (h : p ≠ k) : getKey (assignKey (.obj fs) k v) p = getKey (.obj fs) p := by
  simp [assignKey, getKey, lookupField_setField_ne _ _ _ _ h]

/-! ## Shape lemmas: one loop iteration of `_create` touches only `key`. -/

theorem processKeyWith_shape
    (recf : DVal → Option (List String) → Option Component → JRes (Option Component × DVal))
    (c : Component) (o : DVal) (path : List String) (m : DVal) (cp : List String)
    (key : String) (c' : Component) (o' : DVal)
    (h : processKeyWith recf c o path m cp key = .ok (c', o')) :
    (c' = c ∨ ∃ x, c' = compSetProp c key x) ∧
    (o' = o ∨ ∃ v, o' = updateKeyInPlace o key v) := by
  simp only [processKeyWith] at h
  repeat' split at h
  all_goals try simp only [Except.ok.injEq, Prod.mk.injEq] at h
  all_goals
    first
    | exact Except.noConfusion h
    | (obtain ⟨h1, h2⟩ := h
       subst h1
       subst h2
       first
       | exact ⟨Or.inl rfl, Or.inl rfl⟩
       | exact ⟨Or.inr ⟨_, rfl⟩, Or.inr ⟨_, rfl⟩⟩
       | exact ⟨Or.inl rfl, Or.inr ⟨_, rfl⟩⟩
       | exact ⟨Or.inr ⟨_, rfl⟩, Or.inl rfl⟩)

/-- Skipped keys (`type` and constructor params) leave everything unchanged. -/
theorem processKeyWith_skip
    (recf : DVal → Option (List String) → Option Component → JRes (Option Component × DVal))
    (c : Component) (o : DVal) (path : List String) (m : DVal) (cp : List String)
    (key : String) (h : cp.contains key = true) :
    processKeyWith recf c o path m cp key = .ok (c, o) := by
  have h' : key ∈ cp := by simpa using h
  simp [processKeyWith, h']

/-! ## The engine never adds, removes or overwrites an own property on the
prototype (caller's) side of the `Object.create` copy. -/

/-- `v` is an `Object.create` copy over the caller's object `fields`: the
prototype side has the same own-key list as `fields`, and every own property
of `fields` bound to a non-object value (one the recursion cannot mutate in
place) still holds exactly that value.  Own properties bound to object-like
values can change only by in-place mutation of the referenced node. -/
def ProtoOver (fields : List (String × DVal)) (v : DVal) : Prop :=
  ∃ own proto, v = .protoObj own proto ∧
    proto.map Prod.fst = fields.map Prod.fst ∧
    ∀ k w, lookupField fields k = some w → isObjectLike w = false →
      lookupField proto k = some w

theorem ProtoOver_assignKey {fields : List (String × DVal)} {v : DVal} (k : String)
    (w : DVal) (h : ProtoOver fields v) : ProtoOver fields (assignKey v k w) := by
  obtain ⟨own, proto, rfl, hk, hs⟩ := h
  exact ⟨setField own k w, proto, rfl, hk, hs⟩

/-- `_create` on a non-object value returns at once with the value unchanged
(line 165's guard), so the recursion never alters non-object values. -/
theorem createC_scalar (fuel : Nat) (v : DVal) (path? : Option (List String))
    (component? : Option Component) (r : Option Component × DVal)
    (hrun : createC fuel v path? component? = .ok r)
    (hv : isObjectLike v = false) : r.2 = v := by
  match fuel with
  | 0 => exact Except.noConfusion hrun
  | fuel + 1 =>
    simp only [createC] at hrun
    rw [if_pos (by simp [hv])] at hrun
    simp only [Except.ok.injEq] at hrun
    rw [← hrun]

/-- `updateKeyInPlace` preserves `ProtoOver` whenever the written value is the
value that was read at that key, or the read value was object-like (the only
two situations the key loop produces). -/
theorem ProtoOver_updateKeyInPlace {fields own proto : List (String × DVal)}
    (key : String) (v2 : DVal)
    (hk : proto.map Prod.fst = fields.map Prod.fst)
    (hs : ∀ k w, lookupField fields k = some w → isObjectLike w = false →
      lookupField proto k = some w)
    (hval : v2 = getKey (.protoObj own proto) key ∨
            isObjectLike (getKey (.protoObj own proto) key) = true) :
    ProtoOver fields (updateKeyInPlace (.protoObj own proto) key v2) := by
  simp only [updateKeyInPlace]
  split
  · exact ⟨_, proto, rfl, hk, hs⟩
  · rename_i hown
    split
    · rename_i hproto
      refine ⟨own, setField proto key v2, rfl, ?_, ?_⟩
      · rw [setField_keys_of_isSome _ _ _ hproto, hk]
      · intro k w hw hwscalar
        by_cases hkk : k = key
        · subst hkk
          have hcur : lookupField proto k = some w := hs k w hw hwscalar
          have hnone : lookupField own k = none := by
            cases hol : lookupField own k
            · rfl
            · exact absurd (by rw [hol]; rfl) hown
          have hget : getKey (.protoObj own proto) k = w := by
            simp only [getKey]
            rw [hnone, hcur]
            rfl
          rcases hval with rfl | hobj
          · rw [lookupField_setField_self, hget]
          · rw [hget] at hobj
            rw [hwscalar] at hobj
            exact Bool.noConfusion hobj
        · rw [lookupField_setField_ne _ _ _ _ hkk]
          exact hs k w hw hwscalar
    · exact ⟨own, proto, rfl, hk, hs⟩

/-- One loop iteration leaves `options` unchanged, or writes back at `key`
either the very value it read there (when that value is not object-like, by
the recursion's guard) or some mutation of an object-like value. -/
theorem processKeyWith_options_refined
    (recf : DVal → Option (List String) → Option Component → JRes (Option Component × DVal))
    (hrec : ∀ v p c? r, recf v p c? = .ok r → isObjectLike v = false → r.2 = v)
    (c : Component) (o : DVal) (path : List String) (m : DVal) (cp : List String)
    (key : String) (c' : Component) (o' : DVal)
    (h : processKeyWith recf c o path m cp key = .ok (c', o')) :
    o' = o ∨ ∃ v2, o' = updateKeyInPlace o key v2 ∧
      (v2 = getKey o key ∨ isObjectLike (getKey o key) = true) := by
  simp only [processKeyWith] at h
  repeat' split at h
  all_goals try simp only [Except.ok.injEq, Prod.mk.injEq] at h
  all_goals
    first
    | exact Except.noConfusion h
    | exact Or.inl h.2.symm
    | (refine Or.inr ⟨_, h.2.symm, Or.inr ?_⟩
       simp_all [isObjectLike]
       done)
    | (rename_i heq
       by_cases hko : isObjectLike (getKey o key) = true
       · exact Or.inr ⟨_, h.2.symm, Or.inr hko⟩
       · have hko2 : isObjectLike (getKey o key) = false := by
           cases hcc : isObjectLike (getKey o key)
           · rfl
           · exact absurd hcc hko
         exact Or.inr ⟨_, h.2.symm, Or.inl (hrec _ _ _ _ heq hko2)⟩)

theorem ProtoOver_setChartType {fields : List (String × DVal)} {v : DVal}
    (h : ProtoOver fields v) : ProtoOver fields (setChartType v) := by
  simp only [setChartType]
  repeat' split
  all_goals
    first
    | exact h
    | exact ProtoOver_assignKey _ _ h
    | exact ProtoOver_assignKey _ _ (ProtoOver_assignKey _ _ h)

theorem ProtoOver_setComponentType {fields : List (String × DVal)} {v : DVal}
    (path? : Option (List String)) (h : ProtoOver fields v) :
    ProtoOver fields (setComponentType v path?) := by
  have hc := ProtoOver_setChartType h
  simp only [setComponentType]
  repeat' split
  all_goals
    first
    | exact h
    | exact hc
    | exact ProtoOver_assignKey _ _ h
    | exact ProtoOver_assignKey _ _ hc
    | exact ProtoOver_assignKey _ _ (ProtoOver_assignKey _ _ h)
    | exact ProtoOver_assignKey _ _ (ProtoOver_assignKey _ _ hc)

theorem ProtoOver_foldl_assign {fields : List (String × DVal)} (keys : List String)
    (f : DVal → String → DVal)
    (hf : ∀ v k, ProtoOver fields v → ProtoOver fields (f v k)) :
    ∀ v, ProtoOver fields v → ProtoOver fields (keys.foldl f v) := by
  induction keys with
  | nil => intro v h; simpa using h
  | cons hd tl ih =>
    intro v h
    simpa using ih _ (hf _ _ h)

theorem ProtoOver_setComponentDefaults {fields : List (String × DVal)} {v : DVal}
    (m : DVal) (h : ProtoOver fields v) : ProtoOver fields (setComponentDefaults v m) := by
  simp only [setComponentDefaults]
  split
  · refine ProtoOver_foldl_assign _ _ (fun w k hw => ?_) _ h
    split
    · exact hw
    · exact ProtoOver_assignKey _ _ hw
  · exact h

theorem ProtoOver_processKeyWith {fields : List (String × DVal)}
    (recf : DVal → Option (List String) → Option Component → JRes (Option Component × DVal))
    (hrec : ∀ v p c? r, recf v p c? = .ok r → isObjectLike v = false → r.2 = v)
    (c : Component) (o : DVal) (path : List String) (m : DVal) (cp : List String)
    (key : String) (c' : Component) (o' : DVal)
    (hrun : processKeyWith recf c o path m cp key = .ok (c', o'))
    (h : ProtoOver fields o) : ProtoOver fields o' := by
  rcases processKeyWith_options_refined recf hrec c o path m cp key c' o' hrun with
    rfl | ⟨v2, rfl, hval⟩
  · exact h
  · obtain ⟨own, proto, rfl, hk, hs⟩ := h
    exact ProtoOver_updateKeyInPlace key v2 hk hs hval

theorem ProtoOver_foldKeysWith {fields : List (String × DVal)}
    (recf : DVal → Option (List String) → Option Component → JRes (Option Component × DVal))
    (hrec : ∀ v p c? r, recf v p c? = .ok r → isObjectLike v = false → r.2 = v)
    (keys : List String) :
    ∀ (c : Component) (o : DVal) (path : List String) (m : DVal) (cp : List String)
      (c' : Component) (o' : DVal),
      foldKeysWith recf keys c o path m cp = .ok (c', o') →
      ProtoOver fields o → ProtoOver fields o' := by
  induction keys with
  | nil =>
    intro c o path m cp c' o' hrun h
    unfold foldKeysWith at hrun
    simp only [Except.ok.injEq, Prod.mk.injEq] at hrun
    obtain ⟨_, h2⟩ := hrun
    subst h2
    exact h
  | cons hd tl ih =>
    intro c o path m cp c' o' hrun h
    unfold foldKeysWith at hrun
    split at hrun
    · exact Except.noConfusion hrun
    · rename_i c1 o1 heq
      exact ih _ _ _ _ _ _ _ hrun
        (ProtoOver_processKeyWith recf hrec c o path m cp hd _ _ heq h)

theorem ProtoOver_createC {fields : List (String × DVal)} (fuel : Nat) (o : DVal)
    (path? : Option (List String)) (component? : Option Component)
    (c? : Option Component) (o' : DVal)
    (hrun : createC fuel o path? component? = .ok (c?, o'))
    (h : ProtoOver fields o) : ProtoOver fields o' := by
  match fuel with
  | 0 => exact Except.noConfusion hrun
  | fuel + 1 =>
    simp only [createC] at hrun
    repeat' split at hrun
    all_goals try simp only [Except.ok.injEq, Prod.mk.injEq] at hrun
    all_goals
      first
      | exact Except.noConfusion hrun
      | (obtain ⟨h1, h2⟩ := hrun
         subst h2
         first
         | exact h
         | exact ProtoOver_setComponentType path? h
         | (rename_i heq
            exact ProtoOver_foldKeysWith _
              (fun v p c2 r hr hv => createC_scalar fuel v p c2 r hr hv)
              _ _ _ _ _ _ _ _ heq
              (ProtoOver_setComponentDefaults _
                (ProtoOver_setComponentType path? h))))

/-! ## Claim C1. -/

/-- C1 (counterexample): the claim says `create(cfg)` leaves `cfg` **and every
nested node** unchanged.  In fact only the root is protected: for
`cfg = { series: [{}] }`, after `create(cfg)` the caller's nested series
element has gained an own property `type = "line"` (written by
`setComponentType` at the `cartesian.series` path), while before the call it
had none. -/
theorem c1_counterexample :
    getKey (getKey (getKey
        (cfgAfterCreate 50 (.obj [("series", .arr [.obj []])])) "series") "0") "type"
      = .str "line" ∧
    getKey (getKey (getKey
        ((DVal.obj [("series", .arr [.obj []])])) "series") "0") "type"
      = .undefined :=
  ⟨rfl, rfl⟩

/-- C1 (amended): only the root configuration object is protected by the
`Object.create` copy: `create` never adds, removes or overwrites an own
property of the caller's root object — the own-key list is unchanged, and
every own property bound to a non-object value keeps exactly its value (type
inference and defaults merging write to the protective copy, never through to
the caller).  Own properties bound to object-like values change only through
in-place mutation of the node they reference (see the counterexample). -/
theorem c1_amended (fuel : Nat) (fields : List (String × DVal))
    (h : isOk (create fuel (.obj fields)) = true) :
    ∃ fields', cfgAfterCreate fuel (.obj fields) = .obj fields' ∧
      fields'.map Prod.fst = fields.map Prod.fst ∧
      ∀ k w, lookupField fields k = some w → isObjectLike w = false →
        lookupField fields' k = some w := by
  cases hre : createC fuel (.protoObj [] fields) none none with
  | error e =>
    simp only [isOk, create, hre] at h
    exact Bool.noConfusion h
  | ok v =>
    obtain ⟨c?, o'⟩ := v
    have hp : ProtoOver fields o' :=
      ProtoOver_createC fuel _ none none c? o' hre
        ⟨[], fields, rfl, rfl, fun _ _ hw _ => hw⟩
    obtain ⟨own', proto', rfl, hkeys, hscal⟩ := hp
    refine ⟨proto', ?_, hkeys, hscal⟩
    simp only [cfgAfterCreate, create, hre]

/-- C1 (witness for the amended theorem, at `cfg = { type: "", series: [{}] }`:
the caller's falsy `type` own-value is not overwritten by type inference, and
the own-key list is preserved). -/
theorem c1_amended_witness :
    ∃ fields', cfgAfterCreate 50
        (.obj [("type", .str ""), ("series", .arr [.obj []])]) = .obj fields' ∧
      fields'.map Prod.fst
        = [("type", DVal.str ""), ("series", DVal.arr [.obj []])].map Prod.fst ∧
      ∀ k w, lookupField [("type", DVal.str ""), ("series", DVal.arr [.obj []])] k
          = some w → isObjectLike w = false → lookupField fields' k = some w :=
  c1_amended 50 [("type", .str ""), ("series", .arr [.obj []])] rfl

/-! ## Update-side lemmas. -/

/-- A value that stores a constructor function under some key is an object or
an array, hence truthy. -/
theorem truthy_of_getKey_ctorv (m : DVal) (key : String) (k : CompKind)
    (h : getKey m key = .ctorv k) : truthy m = true := by
  cases m <;>
    first
    | rfl
    | (exfalso
       simp only [getKey] at h
       repeat' split at h
       all_goals exact DVal.noConfusion h)

/-- The legend overwrite loop as a pure function, for a plain-object legend
configuration (on which the `in` operator cannot throw). -/
def legendWritePure (defs : List (String × DVal)) (legendCfg : DVal) :
    List (String × CompVal) → List (String × CompVal)
  | props =>
    match defs with
    | [] => props
    | (key, dflt) :: rest =>
      legendWritePure rest legendCfg
        (setProp props key
          (.val (if keyIn legendCfg key then getKey legendCfg key else dflt)))

theorem legendWrite_obj (defs : List (String × DVal)) (lfields : List (String × DVal)) :
    ∀ props, legendWrite defs (.obj lfields) props =
      .ok (legendWritePure defs (.obj lfields) props) := by
  induction defs with
  | nil => intro props; rfl
  | cons hd rest ih =>
    intro props
    obtain ⟨key, dflt⟩ := hd
    simp only [legendWrite, legendWritePure, keyInRes, keyIn]
    exact ih _

theorem legendWritePure_lookup_notmem (defs : List (String × DVal)) (cfg : DVal)
    (k : String) (hk : k ∉ defs.map Prod.fst) :
    ∀ props, lookupProp (legendWritePure defs cfg props) k = lookupProp props k := by
  induction defs with
  | nil => intro props; rfl
  | cons hd rest ih =>
    intro props
    obtain ⟨key, dflt⟩ := hd
    simp only [List.map, List.mem_cons, not_or] at hk
    simp only [legendWritePure]
    rw [ih hk.2, lookupProp_setProp_ne _ _ _ _ hk.1]

/-- Every key of the defaults table is written by the legend loop: from the
configuration's legend when present there, else the table's default. -/
theorem legendWritePure_lookup (defs : List (String × DVal)) (cfg : DVal)
    (k : String) (d : DVal) (hnodup : (defs.map Prod.fst).Nodup)
    (hmem : (k, d) ∈ defs) :
    ∀ props, lookupProp (legendWritePure defs cfg props) k =
      some (.val (if keyIn cfg k then getKey cfg k else d)) := by
  induction defs with
  | nil => cases hmem
  | cons hd rest ih =>
    intro props
    obtain ⟨key, dflt⟩ := hd
    simp only [List.map, List.nodup_cons] at hnodup
    rcases List.mem_cons.mp hmem with heq | hrest
    · obtain ⟨rfl, rfl⟩ := Prod.mk.injEq .. ▸ heq
      simp only [legendWritePure]
      rw [legendWritePure_lookup_notmem _ _ _ hnodup.1, lookupProp_setProp_self]
    · simp only [legendWritePure]
      exact ih hnodup.2 hrest _

/-! ## Claim C9. -/

/-- C9: `update` modifies no property of the instance other than its `legend`:
for every configuration and defaults table, whenever the call returns, the
result agrees with the original instance on its kind, its constructor
arguments, and every property other than `legend` (in particular `axes`,
`series`, `title`, `subtitle` sub-instances are exactly as before). -/
theorem c9_update_touches_only_legend (defs : List (String × DVal))
    (comp : Component) (cfg : DVal) (comp' : Component)
    (h : update defs comp cfg = .ok comp') :
    comp'.kind = comp.kind ∧ comp'.ctorArgs = comp.ctorArgs ∧
    ∀ k, k ≠ "legend" → compGetProp comp' k = compGetProp comp k := by
  cases cfg with
  | obj fields =>
    simp only [update, updateC] at h
    repeat' split at h
    all_goals try simp only [Except.ok.injEq] at h
    all_goals
      first
      | exact Except.noConfusion h
      | (subst h; exact ⟨rfl, rfl, fun k hk => rfl⟩)
      | (subst h
         exact ⟨compSetProp_kind _ _ _, compSetProp_ctorArgs _ _ _,
                fun k hk => compGetProp_compSetProp_ne _ _ _ _ hk⟩)
  | undefined => exact Except.noConfusion h
  | str s => exact Except.noConfusion h
  | ctorv k => exact Except.noConfusion h
  | ext n => exact Except.noConfusion h
  | arr xs => exact Except.noConfusion h
  | protoObj own proto => exact Except.noConfusion h

/-- C9 (witness): a cartesian chart whose legend is overwritten by
`update(instance, { legend: {} })` keeps its kind, constructor arguments and
every non-`legend` property. -/
theorem c9_witness :
    (Component.mk .cartesianChart [] [("legend", .comp (.mk .legendComp []
        [("position", .val (.str "left"))]))]).kind
      = (Component.mk .cartesianChart [] [("legend", .comp (.mk .legendComp []
        [("position", .val (.str "right"))]))]).kind ∧
    (Component.mk .cartesianChart [] [("legend", .comp (.mk .legendComp []
        [("position", .val (.str "left"))]))]).ctorArgs
      = (Component.mk .cartesianChart [] [("legend", .comp (.mk .legendComp []
        [("position", .val (.str "right"))]))]).ctorArgs ∧
    ∀ k, k ≠ "legend" →
      compGetProp (Component.mk .cartesianChart [] [("legend", .comp (.mk .legendComp []
        [("position", .val (.str "left"))]))]) k
      = compGetProp (Component.mk .cartesianChart [] [("legend", .comp (.mk .legendComp []
        [("position", .val (.str "right"))]))]) k :=
  c9_update_touches_only_legend [("position", .str "left")]
    (.mk .cartesianChart [] [("legend", .comp (.mk .legendComp []
      [("position", .val (.str "right"))]))])
    (.obj [("legend", .obj [])]) _ rfl

/-! ## Claim C5. -/

/-- C5: when the resolved descriptor's constructor kind does not match the
existing instance's kind, `update` is a silent no-op: it returns with the
instance completely unchanged (its legend included), for every configuration
and defaults table. -/
theorem c5_update_kind_mismatch_noop (defs : List (String × DVal)) (comp : Component)
    (fields : List (String × DVal)) (path : List String) (mapping : DVal) (k : CompKind)
    (hpath : resolvePath (setComponentType (.protoObj [] fields) none) none = .ok path)
    (hmap : getMappingSegs path = .ok mapping)
    (hctor : getKey mapping "constructor" = .ctorv k)
    (hne : comp.kind ≠ k) :
    update defs comp (.obj fields) = .ok comp := by
  have htr := truthy_of_getKey_ctorv _ _ _ hctor
  have hg : truthy (DVal.protoObj [] fields) = true := rfl
  have hg2 : isObjectLike (DVal.protoObj [] fields) = true := rfl
  simp [update, updateC, hpath, hmap, hctor, htr, hne, hg, hg2]

/-- C5 (witness): `update(polarInstance, { type: "cartesian", ... })` leaves
the polar instance untouched. -/
theorem c5_witness :
    update [("position", .str "left")]
        (.mk .polarChart [] [("legend", .comp (.mk .legendComp []
          [("position", .val (.str "right"))]))])
        (.obj [("type", .str "cartesian"), ("data", .str "d")])
      = .ok (.mk .polarChart [] [("legend", .comp (.mk .legendComp []
          [("position", .val (.str "right"))]))]) :=
  c5_update_kind_mismatch_noop _ _ _ ["cartesian"] cartesianMapping .cartesianChart
    rfl rfl rfl (by decide)

/-! ## Claim C4. -/

/-- C4 (counterexample): the claim quantifies over *every* update call whose
configuration carries a legend sub-object; but when the kind check fails the
legend loop is skipped entirely.  With defaults table
`{ position: "left" }`, `update(polarInstance, { type: "cartesian",
legend: {} })` returns the instance unchanged: its legend `position` stays
`"right"` instead of being reset to the table's default `"left"`. -/
theorem c4_counterexample :
    update [("position", .str "left")]
        (.mk .polarChart [] [("legend", .comp (.mk .legendComp []
          [("position", .val (.str "right"))]))])
        (.obj [("type", .str "cartesian"), ("legend", .obj [])])
      = .ok (.mk .polarChart [] [("legend", .comp (.mk .legendComp []
          [("position", .val (.str "right"))]))]) ∧
    ("right" : String) ≠ "left" :=
  ⟨rfl, by decide⟩

/-- C4 (amended): for every update call that passes the instance-kind gate
(the resolved descriptor's constructor kind equals the instance's kind) and
whose configuration carries a legend sub-object, every key of the legend
defaults table is written on the instance's legend: copied from the
configuration's legend when present there, else reset to the table's default
— a complete overwrite, never a partial merge.  (When no descriptor resolves
the gate is skipped and the same overwrite runs; see C10.) -/
theorem c4_amended (defs : List (String × DVal)) (comp : Component)
    (fields : List (String × DVal)) (path : List String) (mapping : DVal)
    (lfields : List (String × DVal)) (lk : CompKind) (la : List DVal)
    (lprops : List (String × CompVal)) (k : String) (d : DVal)
    (hpath : resolvePath (setComponentType (.protoObj [] fields) none) none = .ok path)
    (hmap : getMappingSegs path = .ok mapping)
    (hctor : getKey mapping "constructor" = .ctorv comp.kind)
    (hleg : getKey (setComponentDefaults (setComponentType (.protoObj [] fields) none)
              mapping) "legend" = .obj lfields)
    (hlegInst : compGetProp comp "legend" = some (.comp (.mk lk la lprops)))
    (hnodup : (defs.map Prod.fst).Nodup) (hmem : (k, d) ∈ defs) :
    update defs comp (.obj fields) =
      .ok (compSetProp comp "legend"
            (.comp (.mk lk la (legendWritePure defs (.obj lfields) lprops)))) ∧
    lookupProp (legendWritePure defs (.obj lfields) lprops) k =
      some (.val (if keyIn (.obj lfields) k then getKey (.obj lfields) k else d)) := by
  constructor
  · have htr := truthy_of_getKey_ctorv _ _ _ hctor
    have hg : truthy (DVal.protoObj [] fields) = true := rfl
    have hg2 : isObjectLike (DVal.protoObj [] fields) = true := rfl
    have hlt : truthy (DVal.obj lfields) = true := rfl
    simp [update, updateC, hpath, hmap, hctor, htr, hg, hg2, hleg, hlt, hlegInst,
      legendWrite_obj, Component.kind, Component.ctorArgs, Component.props]
  · exact legendWritePure_lookup defs _ k d hnodup hmem _

/-- C4 (witness for the amended theorem): updating a cartesian chart whose
legend has `position = "right"` with `{ legend: {} }` and defaults table
`{ position: "left" }` resets `position` to `"left"`. -/
theorem c4_amended_witness :
    (update [("position", .str "left")]
        (.mk .cartesianChart [] [("legend", .comp (.mk .legendComp []
          [("position", .val (.str "right"))]))])
        (.obj [("legend", .obj [])]) =
      .ok (compSetProp
            (.mk .cartesianChart [] [("legend", .comp (.mk .legendComp []
              [("position", .val (.str "right"))]))])
            "legend"
            (.comp (.mk .legendComp []
              (legendWritePure [("position", .str "left")] (.obj [])
                [("position", .val (.str "right"))]))))) ∧
    lookupProp (legendWritePure [("position", .str "left")] (.obj [])
        [("position", .val (.str "right"))]) "position" =
      some (.val (if keyIn (.obj []) "position" then getKey (.obj []) "position"
                  else .str "left")) :=
  c4_amended [("position", .str "left")]
    (.mk .cartesianChart [] [("legend", .comp (.mk .legendComp []
      [("position", .val (.str "right"))]))])
    [("legend", .obj [])] ["cartesian"] cartesianMapping [] .legendComp []
    [("position", .val (.str "right"))] "position" (.str "left")
    rfl rfl rfl rfl rfl (by simp) (by simp)

/-! ## Claim C10. -/

/-- C10: when the resolved path yields no descriptor (an unrecognized type),
the instance-kind check is skipped entirely — no hypothesis about the
instance's kind is needed — and a legend sub-object in the configuration
still triggers the full legend overwrite on the instance's legend. -/
theorem c10_update_unresolved_type_still_legend (defs : List (String × DVal))
    (comp : Component) (fields : List (String × DVal)) (path : List String)
    (mv : DVal) (lfields : List (String × DVal)) (lk : CompKind) (la : List DVal)
    (lprops : List (String × CompVal)) (k : String) (d : DVal)
    (hpath : resolvePath (setComponentType (.protoObj [] fields) none) none = .ok path)
    (hmap : getMappingSegs path = .ok mv)
    (hfalsy : truthy mv = false)
    (hleg : getKey (setComponentType (.protoObj [] fields) none) "legend" = .obj lfields)
    (hlegInst : compGetProp comp "legend" = some (.comp (.mk lk la lprops)))
    (hnodup : (defs.map Prod.fst).Nodup) (hmem : (k, d) ∈ defs) :
    update defs comp (.obj fields) =
      .ok (compSetProp comp "legend"
            (.comp (.mk lk la (legendWritePure defs (.obj lfields) lprops)))) ∧
    lookupProp (legendWritePure defs (.obj lfields) lprops) k =
      some (.val (if keyIn (.obj lfields) k then getKey (.obj lfields) k else d)) := by
  constructor
  · have hg : truthy (DVal.protoObj [] fields) = true := rfl
    have hg2 : isObjectLike (DVal.protoObj [] fields) = true := rfl
    have hlt : truthy (DVal.obj lfields) = true := rfl
    simp [update, updateC, hpath, hmap, hfalsy, hg, hg2, hleg, hlt, hlegInst,
      legendWrite_obj, Component.kind, Component.ctorArgs, Component.props]
  · exact legendWritePure_lookup defs _ k d hnodup hmem _

/-- C10 (witness): `update(polarInstance, { type: "weird", legend: {} })` with
defaults table `{ position: "left" }` still overwrites the polar instance's
legend (resetting `position` to `"left"`), even though `"weird"` resolves to
no descriptor — the kind check never ran. -/
theorem c10_witness :
    (update [("position", .str "left")]
        (.mk .polarChart [] [("legend", .comp (.mk .legendComp []
          [("position", .val (.str "right"))]))])
        (.obj [("type", .str "weird"), ("legend", .obj [])]) =
      .ok (compSetProp
            (.mk .polarChart [] [("legend", .comp (.mk .legendComp []
              [("position", .val (.str "right"))]))])
            "legend"
            (.comp (.mk .legendComp []
              (legendWritePure [("position", .str "left")] (.obj [])
                [("position", .val (.str "right"))]))))) ∧
    lookupProp (legendWritePure [("position", .str "left")] (.obj [])
        [("position", .val (.str "right"))]) "position" =
      some (.val (if keyIn (.obj []) "position" then getKey (.obj []) "position"
                  else .str "left")) :=
  c10_update_unresolved_type_still_legend [("position", .str "left")]
    (.mk .polarChart [] [("legend", .comp (.mk .legendComp []
      [("position", .val (.str "right"))]))])
    [("type", .str "weird"), ("legend", .obj [])] ["weird"] .undefined [] .legendComp []
    [("position", .val (.str "right"))] "position" (.str "left")
    rfl rfl rfl rfl rfl (by simp) (by simp)

/-! ## Claim C6: type inference. -/

theorem chartTypeForSeries_line : chartTypeForSeries (.str "line") = some "cartesian" := rfl

theorem chartTypeForSeries_column : chartTypeForSeries (.str "column") = some "cartesian" := rfl

theorem chartTypeForSeries_bar : chartTypeForSeries (.str "bar") = some "cartesian" := rfl

theorem chartTypeForSeries_scatter : chartTypeForSeries (.str "scatter") = some "cartesian" := rfl

theorem chartTypeForSeries_area : chartTypeForSeries (.str "area") = some "cartesian" := rfl

theorem chartTypeForSeries_pie : chartTypeForSeries (.str "pie") = some "polar" := rfl

/-- The inference loop only ever yields a registered top-level chart kind. -/
theorem chartTypeForSeries_shape (v : DVal) (ct : String)
    (h : chartTypeForSeries v = some ct) : ct = "cartesian" ∨ ct = "polar" := by
  simp only [chartTypeForSeries,
    show ownKeysForIn mappings = ["cartesian", "polar"] from rfl,
    List.findSome?] at h
  repeat' split at h
  all_goals try exact Option.noConfusion h
  all_goals rename_i b heq
  all_goals injection h with h1
  all_goals subst h1
  all_goals split at heq
  all_goals
    first
    | exact Option.noConfusion heq
    | (injection heq with h2
       subst h2
       exact Or.inl rfl)
    | (injection heq with h2
       subst h2
       exact Or.inr rfl)

/-- A series type registered under no chart kind yields no inference. -/
theorem chartTypeForSeries_unknown (t : String)
    (h1 : t ≠ "line") (h2 : t ≠ "column") (h3 : t ≠ "bar") (h4 : t ≠ "scatter")
    (h5 : t ≠ "area") (h6 : t ≠ "pie") :
    chartTypeForSeries (.str t) = none := by
  simp [chartTypeForSeries,
    show ownKeysForIn mappings = ["cartesian", "polar"] from rfl,
    show ownKeysForIn (getKey (getKey mappings "cartesian") "series")
      = ["line", "column", "bar", "scatter", "area"] from rfl,
    show ownKeysForIn (getKey (getKey mappings "polar") "series")
      = ["pie"] from rfl,
    List.findSome?, List.find?, h1, h2, h3, h4, h5, h6]

theorem setChartType_of_truthy (v : DVal) (h : truthy (getKey v "type") = true) :
    setChartType v = v := by
  simp [setChartType, h]

/-- `setChartType` on a root config with no truthy `type` and a truthy first
series element whose `type` is the nonempty string `t` assigns the inferred
chart kind (fallback `"cartesian"`). -/
theorem setChartType_eval (fields : List (String × DVal)) (s0 : DVal) (t : String)
    (hno : truthy (getKey (.obj fields) "type") = false)
    (hser : truthy (getKey (.obj fields) "series") = true)
    (h0 : getKey (getKey (.obj fields) "series") "0" = s0)
    (h0t : truthy s0 = true)
    (hty : getKey s0 "type" = .str t) (hne : t ≠ "") :
    setChartType (.obj fields) =
      assignKey (.obj fields) "type"
        (.str ((chartTypeForSeries (.str t)).getD "cartesian")) := by
  have htn : truthy (.str t) = true := by simp [truthy, hne]
  have htc : truthy (DVal.str "cartesian") = true := rfl
  have htp : truthy (DVal.str "polar") = true := rfl
  cases hct : chartTypeForSeries (.str t) with
  | some ct =>
    rcases chartTypeForSeries_shape _ _ hct with rfl | rfl <;>
      simp [setChartType, hno, hser, h0, h0t, hty, hct, htn, htc, htp,
        getKey_assignKey_obj_self]
  | none =>
    simp [setChartType, hno, hser, h0, h0t, hty, hct, htn, htc,
      getKey_assignKey_obj_self]

/-- C6: with no explicit root `type`, if the first series element's `type`
equals a series kind registered under a top-level chart kind, `create`'s type
inference (`setChartType`) adopts that chart kind (`"pie"` yields `"polar"`,
the cartesian series kinds yield `"cartesian"`); any other type string falls
back to `"cartesian"`.  Inference is idempotent: applying it again changes
nothing, so two `create` calls on the same configuration infer the same
kind. -/
theorem c6_type_inference (fields : List (String × DVal)) (s0 : DVal) (t : String)
    (hno : truthy (getKey (.obj fields) "type") = false)
    (hser : truthy (getKey (.obj fields) "series") = true)
    (h0 : getKey (getKey (.obj fields) "series") "0" = s0)
    (h0t : truthy s0 = true)
    (hty : getKey s0 "type" = .str t) :
    (t ∈ ownKeysForIn (getKey cartesianMapping "series") →
      getKey (setChartType (.obj fields)) "type" = .str "cartesian") ∧
    (t ∈ ownKeysForIn (getKey polarMapping "series") →
      getKey (setChartType (.obj fields)) "type" = .str "polar") ∧
    (t ∉ ownKeysForIn (getKey cartesianMapping "series") →
     t ∉ ownKeysForIn (getKey polarMapping "series") →
      getKey (setChartType (.obj fields)) "type" = .str "cartesian") ∧
    setChartType (setChartType (.obj fields)) = setChartType (.obj fields) := by
  have hcart : ownKeysForIn (getKey cartesianMapping "series")
      = ["line", "column", "bar", "scatter", "area"] := rfl
  have hpolar : ownKeysForIn (getKey polarMapping "series") = ["pie"] := rfl
  refine ⟨?_, ?_, ?_, ?_⟩
  · intro hmem
    rw [hcart] at hmem
    simp only [List.mem_cons, List.not_mem_nil, or_false] at hmem
    have hne : t ≠ "" := by
      rcases hmem with rfl | rfl | rfl | rfl | rfl
      all_goals decide
    rw [setChartType_eval fields s0 t hno hser h0 h0t hty hne,
      getKey_assignKey_obj_self]
    rcases hmem with rfl | rfl | rfl | rfl | rfl
    · rw [chartTypeForSeries_line]; rfl
    · rw [chartTypeForSeries_column]; rfl
    · rw [chartTypeForSeries_bar]; rfl
    · rw [chartTypeForSeries_scatter]; rfl
    · rw [chartTypeForSeries_area]; rfl
  · intro hmem
    rw [hpolar] at hmem
    simp only [List.mem_cons, List.not_mem_nil, or_false] at hmem
    subst hmem
    rw [setChartType_eval fields s0 "pie" hno hser h0 h0t hty (by decide),
      getKey_assignKey_obj_self, chartTypeForSeries_pie]
    rfl
  · intro hc hp
    rw [hcart] at hc
    rw [hpolar] at hp
    simp only [List.mem_cons, List.not_mem_nil, or_false, not_or] at hc hp
    by_cases hne : t = ""
    · subst hne
      have hf : truthy (DVal.str "") = false := rfl
      have htc : truthy (DVal.str "cartesian") = true := rfl
      simp [setChartType, hno, hser, h0, h0t, hty, hf, htc, getKey_assignKey_obj_self]
    · rw [setChartType_eval fields s0 t hno hser h0 h0t hty hne,
        getKey_assignKey_obj_self,
        chartTypeForSeries_unknown t hc.1 hc.2.1 hc.2.2.1 hc.2.2.2.1 hc.2.2.2.2 hp]
      rfl
  · by_cases hne : t = ""
    · subst hne
      have hf : truthy (DVal.str "") = false := rfl
      have he : setChartType (.obj fields) = assignKey (.obj fields) "type" (.str "cartesian") := by
        simp [setChartType, hno, hser, h0, h0t, hty, hf, getKey_assignKey_obj_self]
      rw [he]
      exact setChartType_of_truthy _ (by rw [getKey_assignKey_obj_self]; rfl)
    · rw [setChartType_eval fields s0 t hno hser h0 h0t hty hne]
      cases hct : chartTypeForSeries (.str t) with
      | some ct =>
        rcases chartTypeForSeries_shape _ _ hct with rfl | rfl <;>
          exact setChartType_of_truthy _ (by rw [getKey_assignKey_obj_self]; rfl)
      | none =>
        exact setChartType_of_truthy _ (by rw [getKey_assignKey_obj_self]; rfl)

/-- C6 (witness): `{ series: [{ type: "pie" }] }` infers the polar chart
kind. -/
theorem c6_witness :
    getKey (setChartType (.obj [("series", .arr [.obj [("type", .str "pie")]])]))
      "type" = .str "polar" :=
  (c6_type_inference [("series", .arr [.obj [("type", .str "pie")]])]
      (.obj [("type", .str "pie")]) "pie" rfl rfl rfl rfl rfl).2.1 (by decide)

/-! ## Claim C7: defaults merge. -/

/-- One step of the defaults-merge loop (body of `setComponentDefaults`). -/
def defaultsStep (defaults : DVal) (opts : DVal) (key : String) : DVal :=
  if truthy (getKey opts key) then opts else assignKey opts key (getKey defaults key)

theorem setComponentDefaults_eq_foldl (opts m : DVal) :
    setComponentDefaults opts m =
      if truthy (getKey m "defaults") then
        (ownKeysForIn (getKey m "defaults")).foldl
          (defaultsStep (getKey m "defaults")) opts
      else opts := rfl

theorem getKey_defaultsStep_ne (d : DVal) (fs : List (String × DVal)) (k p : String)
    (h : p ≠ k) : getKey (defaultsStep d (.obj fs) k) p = getKey (.obj fs) p := by
  unfold defaultsStep
  split
  · rfl
  · exact getKey_assignKey_obj_ne _ _ _ _ h

theorem defaultsStep_obj (d : DVal) (fs : List (String × DVal)) (k : String) :
    ∃ fs', defaultsStep d (.obj fs) k = .obj fs' := by
  unfold defaultsStep
  split
  · exact ⟨fs, rfl⟩
  · exact ⟨_, rfl⟩

theorem getKey_foldl_defaultsStep_notmem (d : DVal) (keys : List String) :
    ∀ (fs : List (String × DVal)) (p : String), p ∉ keys →
      getKey (keys.foldl (defaultsStep d) (.obj fs)) p = getKey (.obj fs) p := by
  induction keys with
  | nil => intro fs p _; rfl
  | cons hd tl ih =>
    intro fs p hp
    simp only [List.mem_cons, not_or] at hp
    obtain ⟨fs', hfs'⟩ := defaultsStep_obj d fs hd
    simp only [List.foldl_cons, hfs']
    rw [ih fs' p hp.2, ← hfs', getKey_defaultsStep_ne d fs hd p hp.1]

theorem getKey_foldl_defaultsStep_mem (d : DVal) (keys : List String) :
    ∀ (fs : List (String × DVal)) (p : String), keys.Nodup → p ∈ keys →
      getKey (keys.foldl (defaultsStep d) (.obj fs)) p =
        if truthy (getKey (.obj fs) p) then getKey (.obj fs) p else getKey d p := by
  induction keys with
  | nil => intro fs p _ hmem; cases hmem
  | cons hd tl ih =>
    intro fs p hnodup hmem
    simp only [List.nodup_cons] at hnodup
    rcases List.mem_cons.mp hmem with rfl | htl
    · obtain ⟨fs', hfs'⟩ := defaultsStep_obj d fs p
      simp only [List.foldl_cons, hfs']
      rw [getKey_foldl_defaultsStep_notmem d tl fs' p hnodup.1, ← hfs']
      unfold defaultsStep
      split
      · rfl
      · rw [getKey_assignKey_obj_self]
    · obtain ⟨fs', hfs'⟩ := defaultsStep_obj d fs hd
      have hne : p ≠ hd := fun he => hnodup.1 (he ▸ htl)
      simp only [List.foldl_cons, hfs']
      rw [ih fs' p hnodup.2 htl, ← hfs', getKey_defaultsStep_ne d fs hd p hne]

/-- C7: (i) for every key of a resolved descriptor's `defaults`, the merge
copies the default into the config node exactly when the node's value there is
falsy, and never overrides a truthy value; (ii) with `cfg.axes` omitted, the
cartesian instance gets exactly the two default axes (category/bottom,
number/left); (iii) with `cfg.axes` provided (a single-element sequence), the
defaults are not applied — the instance has exactly the provided axis. -/
theorem c7_defaults_merge :
    (∀ (fields : List (String × DVal)) (m : DVal) (key : String),
      (ownKeysForIn (getKey m "defaults")).Nodup →
      key ∈ ownKeysForIn (getKey m "defaults") →
      truthy (getKey m "defaults") = true →
      getKey (setComponentDefaults (.obj fields) m) key =
        if truthy (getKey (.obj fields) key) then getKey (.obj fields) key
        else getKey (getKey m "defaults") key) ∧
    create 50 (.obj [("type", .str "cartesian")]) =
      .ok (some (.mk .cartesianChart []
            [("legend", .comp (.mk .legendComp [] [])),
             ("axes", .comps
               [.mk .categoryAxis [] [("position", .val (.str "bottom"))],
                .mk .numberAxis [] [("position", .val (.str "left"))]])]),
           .obj [("type", .str "cartesian")]) ∧
    create 50 (.obj [("type", .str "cartesian"),
        ("axes", .arr [.obj [("type", .str "number"), ("position", .str "top")]])]) =
      .ok (some (.mk .cartesianChart []
            [("legend", .comp (.mk .legendComp [] [])),
             ("axes", .comps [.mk .numberAxis [] [("position", .val (.str "top"))]])]),
           .obj [("type", .str "cartesian"),
             ("axes", .arr [.obj [("type", .str "number"), ("position", .str "top")]])]) := by
  refine ⟨fun fields m key hnodup hmem htr => ?_, rfl, rfl⟩
  rw [setComponentDefaults_eq_foldl, if_pos htr]
  exact getKey_foldl_defaultsStep_mem _ _ fields key hnodup hmem

/-- C7 (witness): for the cartesian descriptor and key `axes`, with `axes`
omitted from the config, the merge writes the default axes array. -/
theorem c7_witness :
    getKey (setComponentDefaults (.obj [("type", .str "cartesian")]) cartesianMapping)
        "axes" =
      if truthy (getKey (.obj [("type", .str "cartesian")]) "axes") then
        getKey (.obj [("type", .str "cartesian")]) "axes"
      else getKey (getKey cartesianMapping "defaults") "axes" :=
  c7_defaults_merge.1 [("type", .str "cartesian")] cartesianMapping "axes"
    (by decide) (by decide) rfl

/-! ## Claim C8: constructor parameters. -/

theorem construct_ctorArgs (k : CompKind) (args : List DVal) :
    (construct k args).ctorArgs = args := rfl

theorem construct_kind (k : CompKind) (args : List DVal) :
    (construct k args).kind = k := rfl

/-- The key loop never changes the component's kind or constructor arguments,
and never assigns a property at a constructor-parameter name. -/
theorem foldKeysWith_params
    (recf : DVal → Option (List String) → Option Component → JRes (Option Component × DVal))
    (keys : List String) :
    ∀ (c : Component) (o : DVal) (path : List String) (m : DVal) (cp : List String)
      (c' : Component) (o' : DVal) (p : String), cp.contains p = true →
      foldKeysWith recf keys c o path m cp = .ok (c', o') →
      c'.kind = c.kind ∧ c'.ctorArgs = c.ctorArgs ∧
        compGetProp c' p = compGetProp c p := by
  induction keys with
  | nil =>
    intro c o path m cp c' o' p hp hrun
    unfold foldKeysWith at hrun
    simp only [Except.ok.injEq, Prod.mk.injEq] at hrun
    obtain ⟨h1, _⟩ := hrun
    subst h1
    exact ⟨rfl, rfl, rfl⟩
  | cons hd tl ih =>
    intro c o path m cp c' o' p hp hrun
    unfold foldKeysWith at hrun
    split at hrun
    · exact Except.noConfusion hrun
    · rename_i c1 o1 heq
      by_cases hkp : hd = p
      · subst hkp
        rw [processKeyWith_skip recf c o path m cp hd hp] at heq
        simp only [Except.ok.injEq, Prod.mk.injEq] at heq
        obtain ⟨h1, h2⟩ := heq
        subst h1
        subst h2
        exact ih _ _ _ _ _ _ _ _ hp hrun
      · have hshape := (processKeyWith_shape recf c o path m cp hd c1 o1 heq).1
        have hrest := ih _ _ _ _ _ _ _ _ hp hrun
        rcases hshape with rfl | ⟨x, rfl⟩
        · exact hrest
        · refine ⟨hrest.1.trans (compSetProp_kind _ _ _),
            hrest.2.1.trans (compSetProp_ctorArgs _ _ _), hrest.2.2.trans ?_⟩
          exact compGetProp_compSetProp_ne _ _ _ _ (fun he => hkp he.symm)

/-- C8: when `_create` constructs a fresh component with a resolved
descriptor, the factory receives exactly the configuration values named by
`constructorParams`, in `constructorParams` order, with `undefined` values
filtered out (positions not padded); and a configuration key listed in
`constructorParams` is never additionally assigned as a plain property on the
resulting instance (it ends up absent unless the constructor itself sets
it). -/
theorem c8_ctor_params (fuel : Nat) (options : DVal) (path? : Option (List String))
    (path : List String) (mapping : DVal) (k : CompKind) (c : Component)
    (cfg' : DVal) (p : String)
    (hpath : resolvePath (setComponentType options path?) path? = .ok path)
    (hmap : getMappingSegs path = .ok mapping)
    (hctor : getKey mapping "constructor" = .ctorv k)
    (hrun : createC (fuel + 1) options path? none = .ok (some c, cfg'))
    (hp : (asStrList (getKey mapping "constructorParams")).contains p = true)
    (hinit : compGetProp (construct k
        (((asStrList (getKey mapping "constructorParams")).map
          (fun q => getKey (setComponentDefaults (setComponentType options path?)
            mapping) q)).filter (fun v => ¬ isUndefined v))) p = none) :
    c.ctorArgs = ((asStrList (getKey mapping "constructorParams")).map
        (fun q => getKey (setComponentDefaults (setComponentType options path?)
          mapping) q)).filter (fun v => ¬ isUndefined v) ∧
    compGetProp c p = none := by
  have htr := truthy_of_getKey_ctorv _ _ _ hctor
  simp only [createC, hpath, hmap, hctor, htr, if_true] at hrun
  split at hrun
  · simp only [Except.ok.injEq, Prod.mk.injEq] at hrun
    exact absurd hrun.1 (by simp)
  · split at hrun
    · exact Except.noConfusion hrun
    · rename_i res c1 o1 heq
      simp only [Except.ok.injEq, Prod.mk.injEq] at hrun
      obtain ⟨h1, h2⟩ := hrun
      injection h1 with h1
      subst h1
      subst h2
      have hfold := foldKeysWith_params _ _ _ _ _ _ _ _ _ _ hp heq
      refine ⟨hfold.2.1.trans (construct_ctorArgs _ _), hfold.2.2.trans hinit⟩

/-- C8 (witness): building `{ type: "cartesian", document: "doc" }` passes
`"doc"` to the chart constructor and never assigns `document` as a plain
property on the instance. -/
theorem c8_witness :
    (Component.mk .cartesianChart [.str "doc"]
        [("legend", .comp (.mk .legendComp [] [])),
         ("axes", .comps
           [.mk .categoryAxis [] [("position", .val (.str "bottom"))],
            .mk .numberAxis [] [("position", .val (.str "left"))]])]).ctorArgs =
      ((asStrList (getKey cartesianMapping "constructorParams")).map
        (fun q => getKey (setComponentDefaults (setComponentType
          (.obj [("type", .str "cartesian"), ("document", .str "doc")]) none)
          cartesianMapping) q)).filter (fun v => ¬ isUndefined v) ∧
    compGetProp (Component.mk .cartesianChart [.str "doc"]
        [("legend", .comp (.mk .legendComp [] [])),
         ("axes", .comps
           [.mk .categoryAxis [] [("position", .val (.str "bottom"))],
            .mk .numberAxis [] [("position", .val (.str "left"))]])]) "document"
      = none :=
  c8_ctor_params 49 (.obj [("type", .str "cartesian"), ("document", .str "doc")])
    none ["cartesian"] cartesianMapping .cartesianChart
    (.mk .cartesianChart [.str "doc"]
      [("legend", .comp (.mk .legendComp [] [])),
       ("axes", .comps
         [.mk .categoryAxis [] [("position", .val (.str "bottom"))],
          .mk .numberAxis [] [("position", .val (.str "left"))]])])
    (.obj [("type", .str "cartesian"), ("document", .str "doc"),
       ("axes", .arr
         [.obj [("type", .str "category"), ("position", .str "bottom")],
          .obj [("type", .str "number"), ("position", .str "left")]])]) "document"
    rfl rfl rfl rfl rfl rfl

/-! ## Claim C2. -/

/-- C2 (counterexample): the claim says lookup never raises and `create` never
raises for an unrecognized type or path.  In fact `getMapping` walks
`value = value[part]` unguarded, so when a non-final segment is absent the
next access reads off `undefined` and throws a TypeError:
`getMapping("nope.x")` throws, and `create({ type: "nope.x" })` throws. -/
theorem c2_counterexample :
    getMapping "nope.x" = .error .typeError ∧
    create 50 (.obj [("type", .str "nope.x")]) = .error .typeError :=
  ⟨rfl, rfl⟩

/-- The fold of `getMapping` distributes over path concatenation. -/
theorem foldlM_append_jres {α β : Type} (f : β → α → JRes β) (l1 l2 : List α) :
    ∀ b, (l1 ++ l2).foldlM f b = l1.foldlM f b >>= fun b2 => l2.foldlM f b2 := by
  induction l1 with
  | nil => intro b; simp [List.foldlM]
  | cons hd tl ih =>
    intro b
    simp only [List.cons_append, List.foldlM]
    cases f b hd with
    | error e => rfl
    | ok b1 => simp [ih b1]

/-- `Object.create(v)` with no own writes reads exactly like `v`. -/
theorem getKey_protoObj_nil (fields : List (String × DVal)) (k : String) :
    getKey (.protoObj [] fields) k = getKey (.obj fields) k := rfl

/-- C2 (amended): registry lookup returns a "not found" value (no exception)
whenever only the *final* segment can be absent: extending any path that
resolves to a defined value by one more segment never throws, whatever that
segment is.  And `create` on any configuration whose `type` is a dot-free
unrecognized string returns without an instance, without raising, and with
the caller's object untouched.  A type string containing a dot whose first
segment is unregistered still makes lookup (and hence `create`) throw — see
the counterexample. -/
theorem c2_amended :
    (∀ (segs : List String) (last : String) (v : DVal),
      getMappingSegs segs = .ok v → isUndefined v = false →
      isOk (getMappingSegs (segs ++ [last])) = true) ∧
    (∀ (fields : List (String × DVal)) (s : String) (fuel : Nat),
      getKey (.obj fields) "type" = .str s → splitSegs s = [s] → s ≠ "" →
      s ≠ "cartesian" → s ≠ "polar" →
      create (fuel + 1) (.obj fields) = .ok (none, .obj fields)) := by
  constructor
  · intro segs last v hsegs hv
    unfold getMappingSegs at hsegs ⊢
    rw [foldlM_append_jres _ _ _ _, hsegs]
    cases v <;> first | rfl | simp_all [isUndefined]
  · intro fields s fuel ht hsplit h1 h2 h3
    have hg : getKey (DVal.protoObj [] fields) "type" = .str s := by
      rw [getKey_protoObj_nil]
      exact ht
    have hts : truthy (DVal.str s) = true := by simp [truthy, h1]
    have hsct : setChartType (.protoObj [] fields) = .protoObj [] fields := by
      apply setChartType_of_truthy
      rw [hg]
      exact hts
    have hscomp : setComponentType (.protoObj [] fields) none
        = .protoObj [] fields := by
      simp [setComponentType, hsct]
    have hres : resolvePath (.protoObj [] fields) none = .ok [s] := by
      simp [resolvePath, hg, hsplit]
    have hmaps : getKey mappings s = .undefined := by
      simp [mappings, getKey, lookupField, Ne.symm h2, Ne.symm h3]
    have hgm : getMappingSegs [s] = .ok .undefined := by
      have h0 : getMappingSegs [s] = .ok (getKey mappings s) := rfl
      rw [h0, hmaps]
    simp [create, createC, hscomp, hres, hgm, truthy, isObjectLike]

/-- C2 (witness for the amended theorem): `cartesian.series` resolves to the
series group, so looking up `cartesian.series.unknownKind` returns without
raising; and `create({ type: "boom", data: "d" })` returns no instance and
leaves the caller's object untouched. -/
theorem c2_amended_witness :
    isOk (getMappingSegs (["cartesian", "series"] ++ ["unknownKind"])) = true ∧
    create (0 + 1) (.obj [("type", .str "boom"), ("data", .str "d")]) =
      .ok (none, .obj [("type", .str "boom"), ("data", .str "d")]) :=
  ⟨c2_amended.1 ["cartesian", "series"] "unknownKind"
      (getKey cartesianMapping "series") rfl rfl,
   c2_amended.2 [("type", .str "boom"), ("data", .str "d")] "boom" 0 rfl rfl
      (by decide) (by decide) (by decide)⟩

/-! ## Claim C3. -/

/-- C3: for every series element whose `type` is a nonempty dot-free string
that resolves to no descriptor under `cartesian.series`, `create` drops the
element (no instance, no property set from it), assigns the empty sequence to
the instance's `series`, and still builds the rest of the tree (the default
axes); no error is raised. -/
theorem c3_unknown_series_dropped (fuel : Nat) (t : String)
    (hsplit : splitSegs t = [t]) (hne : t ≠ "")
    (hunres : getMappingSegs ["cartesian", "series", t] = .ok .undefined) :
    create (fuel + 1 + 1)
        (.obj [("type", .str "cartesian"), ("series", .arr [.obj [("type", .str t)]])]) =
      .ok (some (.mk .cartesianChart []
            [("legend", .comp (.mk .legendComp [] [])),
             ("axes", .comps
               [.mk .categoryAxis [] [("position", .val (.str "bottom"))],
                .mk .numberAxis [] [("position", .val (.str "left"))]]),
             ("series", .comps [])]),
           .obj [("type", .str "cartesian"),
             ("series", .arr [.obj [("type", .str t)]])]) := by
  have hts : truthy (DVal.str t) = true := by simp [truthy, hne]
  have hin : createC (fuel + 1) (.obj [("type", .str t)])
      (some ["cartesian", "series"]) none = .ok (none, .obj [("type", .str t)]) := by
    have hg : getKey (DVal.obj [("type", DVal.str t)]) "type" = .str t := rfl
    have hscomp : setComponentType (.obj [("type", .str t)])
        (some ["cartesian", "series"]) = .obj [("type", .str t)] := by
      simp [setComponentType, hg, hts]
    have hres : resolvePath (.obj [("type", .str t)]) (some ["cartesian", "series"])
        = .ok ["cartesian", "series", t] := by
      simp [resolvePath, hg, hts, jsToString, hsplit]
    simp only [createC, hscomp, hres, hunres]
    rfl
  have hax1 : createC (fuel + 1)
      (.obj [("type", .str "category"), ("position", .str "bottom")])
      (some ["cartesian", "axes"]) none =
      .ok (some (.mk .categoryAxis [] [("position", .val (.str "bottom"))]),
           .obj [("type", .str "category"), ("position", .str "bottom")]) := rfl
  have hax2 : createC (fuel + 1)
      (.obj [("type", .str "number"), ("position", .str "left")])
      (some ["cartesian", "axes"]) none =
      .ok (some (.mk .numberAxis [] [("position", .val (.str "left"))]),
           .obj [("type", .str "number"), ("position", .str "left")]) := rfl
  generalize hgen : fuel + 1 = g at hin hax1 hax2 ⊢
  simp [create, createC, setComponentType, setChartType, setComponentDefaults,
    resolvePath, getMappingSegs, getKey, lookupField, truthy, isObjectLike, jsToString,
    splitSegs, splitSegsAux, mappings, cartesianMapping, categoryAxisMapping,
    numberAxisMapping, polarMapping, List.foldlM, asStrList, isUndefined, construct,
    foldKeysWith, processKeyWith, createElemsWith, ownKeysForIn, keyIn, keyInRes,
    compGetProp, compSetProp, lookupProp, setProp, compValTruthy, updateKeyInPlace,
    assignKey, setField, Component.kind, Component.ctorArgs, Component.props,
    hin, hax1, hax2]

/-- C3 (witness): the claim's own example, `t = "unknownKind"`. -/
theorem c3_witness :
    create (0 + 1 + 1)
        (.obj [("type", .str "cartesian"),
          ("series", .arr [.obj [("type", .str "unknownKind")]])]) =
      .ok (some (.mk .cartesianChart []
            [("legend", .comp (.mk .legendComp [] [])),
             ("axes", .comps
               [.mk .categoryAxis [] [("position", .val (.str "bottom"))],
                .mk .numberAxis [] [("position", .val (.str "left"))]]),
             ("series", .comps [])]),
           .obj [("type", .str "cartesian"),
             ("series", .arr [.obj [("type", .str "unknownKind")]])]) :=
  c3_unknown_series_dropped 0 "unknownKind" rfl (by decide) rfl
